import Mathlib

/-!
Verification of the Sonalex SDK core: the binary codec for oracle account
records, the router instruction payload builders, program-derived-address
(PDA) seed handling, and the governance authorization resolver.

The TypeScript source is shallowly embedded: byte buffers are `List Nat`
(each element a byte value `< 256`), `Buffer` reads/writes are explicit
functions with Node semantics, fallible reads return `Option`, and signed
64-bit fields are `Int` with explicit two's-complement conversion.
-/

namespace Sonalex

/-- A byte buffer: list of byte values (each `< 256`). -/
abbrev Bytes := List Nat

/-- Little-endian base-256 digits of `n`, exactly `w` bytes wide.
Models what Node's `writeUIntLE`-family stores for an in-range value. -/
def natToLE : Nat → Nat → Bytes
  | 0, _ => []
  | w + 1, n => n % 256 :: natToLE w (n / 256)

/-- Read a little-endian unsigned integer from a byte list. -/
def leNat : Bytes → Nat
  | [] => 0
  | b :: rest => b + 256 * leNat rest

/-- Reinterpret a 64-bit unsigned value as a signed (two's-complement)
integer, as Node's `readBigInt64LE` does. -/
def i64ofNat (u : Nat) : Int :=
  if u < 2 ^ 63 then (u : Int) else (u : Int) - 2 ^ 64

/-- `Buffer.alloc(n)`: a zero-filled buffer of `n` bytes. -/
def Buffer.alloc (n : Nat) : Bytes := List.replicate n 0

/-- Overwrite `bs.length` bytes of `buf` starting at `off`
(the core of every Node `Buffer.write*` call used by the SDK). -/
def writeBytes (buf : Bytes) (off : Nat) (bs : Bytes) : Bytes :=
  buf.take off ++ bs ++ buf.drop (off + bs.length)

/-- `buf.writeUInt8(v, off)` for an in-range `v` (`v < 256`). -/
def writeUInt8 (buf : Bytes) (v off : Nat) : Bytes :=
  writeBytes buf off [v]

/-- `buf.writeUInt32LE(v, off)` for an in-range `v` (`v < 2^32`). -/
def writeUInt32LE (buf : Bytes) (v off : Nat) : Bytes :=
  writeBytes buf off (natToLE 4 v)

/-- `buf.writeBigUInt64LE(v, off)` for an in-range `v` (`v < 2^64`). -/
def writeBigUInt64LE (buf : Bytes) (v off : Nat) : Bytes :=
  writeBytes buf off (natToLE 8 v)

/-- `buf.writeBigInt64LE(v, off)` for an in-range `v`
(two's-complement encoding of `-2^63 ≤ v < 2^63`). -/
def writeBigInt64LE (buf : Bytes) (v : Int) (off : Nat) : Bytes :=
  writeBytes buf off (natToLE 8 (v % 2 ^ 64).toNat)

/-- Bounds-checked read of `len` bytes at `off`; `none` marks an access past
the buffer's end (the out-of-bounds marker for the safety claims). -/
def readBytes? (data : Bytes) (off len : Nat) : Option Bytes :=
  if off + len ≤ data.length then some ((data.drop off).take len) else none

/-- `data.readUInt8(off)`, bounds-checked. -/
def readUInt8? (data : Bytes) (off : Nat) : Option Nat :=
  (readBytes? data off 1).map leNat

/-- `data.readBigUInt64LE(off)`, bounds-checked. -/
def readBigUInt64LE? (data : Bytes) (off : Nat) : Option Nat :=
  (readBytes? data off 8).map leNat

/-- `data.readBigInt64LE(off)`, bounds-checked. -/
def readBigInt64LE? (data : Bytes) (off : Nat) : Option Int :=
  (readBytes? data off 8).map fun bs => i64ofNat (leNat bs)

/-! ## Oracle account decoder (src/sdk/instructions/oracle.ts) -/

/-- Size of a `PriceOracle` account in bytes. -/
def PRICE_ORACLE_SIZE : Nat := 128

/-- Magic bytes for oracle validation: "PRCLORCL" read as a little-endian
64-bit integer. -/
def ORACLE_MAGIC : Nat := 0x4c43524f4c435250

/-- The `PriceOracle` record of `src/sdk/types/index.ts` (public keys kept
as their 32 raw bytes). -/
structure PriceOracle where
  magic : Nat
  version : Nat
  bump : Nat
  authority : Bytes
  instrument : Bytes
  price : Int
  timestamp : Int
  confidence : Int
deriving DecidableEq, Repr

/-- `parseOracleData` of `src/sdk/instructions/oracle.ts`. The outer
`Option` tracks buffer accesses: `none` means some read went past the end
of the buffer (never happens, as proved below); `some none` is the
function's `null` return; `some (some r)` is a parsed record. The source
checks the length, then the magic constant, then unconditionally reads
every remaining field — it has no version check. -/
def parseOracleData (data : Bytes) : Option (Option PriceOracle) :=
  if data.length < PRICE_ORACLE_SIZE then some none
  else
    match readBigUInt64LE? data 0 with
    | none => none
    | some magic =>
      if magic ≠ ORACLE_MAGIC then some none
      else
        match readUInt8? data 8, readUInt8? data 9,
            readBytes? data 16 32, readBytes? data 48 32,
            readBigInt64LE? data 80, readBigInt64LE? data 88,
            readBigInt64LE? data 96 with
        | some version, some bump, some authority, some instrument,
            some price, some timestamp, some confidence =>
          some (some { magic, version, bump, authority, instrument,
                       price, timestamp, confidence })
        | _, _, _, _, _, _, _ => none

/-- `fetchAllOracles` of `src/sdk/instructions/oracle.ts`, at the ledger
boundary: the input is the `(address, account data)` collection the RPC
returns after its `dataSize` filter; each record is parsed independently
and records whose parse returns `null` are skipped. -/
def fetchAllOracles : List (Bytes × Bytes) → List (Bytes × PriceOracle)
  | [] => []
  | (pubkey, accountData) :: rest =>
    match parseOracleData accountData with
    | some (some parsed) => (pubkey, parsed) :: fetchAllOracles rest
    | _ => fetchAllOracles rest

/-! ### Basic byte lemmas -/

theorem natToLE_length (w n : Nat) : (natToLE w n).length = w := by
  induction w generalizing n with
  | zero => rfl
  | succ w ih => simp [natToLE, ih]

theorem leNat_natToLE (w n : Nat) (h : n < 2 ^ (8 * w)) :
    leNat (natToLE w n) = n := by
  induction w generalizing n with
  | zero =>
    interval_cases n
    rfl
  | succ w ih =>
    have hdiv : n / 256 < 2 ^ (8 * w) := by
      rw [Nat.div_lt_iff_lt_mul (by norm_num)]
      calc n < 2 ^ (8 * (w + 1)) := h
        _ = 2 ^ (8 * w) * 256 := by ring
    simp only [natToLE, leNat, ih _ hdiv]
    omega

theorem readBytes?_eq_some (data : Bytes) (off len : Nat)
    (h : off + len ≤ data.length) :
    readBytes? data off len = some ((data.drop off).take len) := by
  simp [readBytes?, h]

/-! ### Decoder characterization -/

/-- A buffer shorter than the descriptor length is rejected at once. -/
theorem parseOracleData_short (data : Bytes)
    (h : data.length < PRICE_ORACLE_SIZE) :
    parseOracleData data = some none := by
  simp [parseOracleData, h]

/-- A long-enough buffer whose leading 8 bytes do not spell the magic
constant is rejected. -/
theorem parseOracleData_badMagic (data : Bytes)
    (h : PRICE_ORACLE_SIZE ≤ data.length)
    (hm : leNat (data.take 8) ≠ ORACLE_MAGIC) :
    parseOracleData data = some none := by
  have hlt : ¬ data.length < PRICE_ORACLE_SIZE := Nat.not_lt.mpr h
  have h8 : 0 + 8 ≤ data.length := by
    simp only [PRICE_ORACLE_SIZE] at h; omega
  simp [parseOracleData, hlt, readBigUInt64LE?, readBytes?_eq_some _ _ _ h8, hm]

/-- A long-enough buffer with the right magic parses into the fully
populated record, each field read from its declared offset. -/
theorem parseOracleData_success (data : Bytes)
    (h : PRICE_ORACLE_SIZE ≤ data.length)
    (hm : leNat (data.take 8) = ORACLE_MAGIC) :
    parseOracleData data = some (some
      { magic := ORACLE_MAGIC
        version := leNat ((data.drop 8).take 1)
        bump := leNat ((data.drop 9).take 1)
        authority := (data.drop 16).take 32
        instrument := (data.drop 48).take 32
        price := i64ofNat (leNat ((data.drop 80).take 8))
        timestamp := i64ofNat (leNat ((data.drop 88).take 8))
        confidence := i64ofNat (leNat ((data.drop 96).take 8)) }) := by
  have hlt : ¬ data.length < PRICE_ORACLE_SIZE := Nat.not_lt.mpr h
  have hlen : 128 ≤ data.length := by simpa [PRICE_ORACLE_SIZE] using h
  have h0 : 0 + 8 ≤ data.length := by omega
  have h8 : 8 + 1 ≤ data.length := by omega
  have h9 : 9 + 1 ≤ data.length := by omega
  have h16 : 16 + 32 ≤ data.length := by omega
  have h48 : 48 + 32 ≤ data.length := by omega
  have h80 : 80 + 8 ≤ data.length := by omega
  have h88 : 88 + 8 ≤ data.length := by omega
  have h96 : 96 + 8 ≤ data.length := by omega
  simp [parseOracleData, hlt, readBigUInt64LE?, readUInt8?, readBigInt64LE?,
    readBytes?_eq_some _ _ _ h0, readBytes?_eq_some _ _ _ h8,
    readBytes?_eq_some _ _ _ h9, readBytes?_eq_some _ _ _ h16,
    readBytes?_eq_some _ _ _ h48, readBytes?_eq_some _ _ _ h80,
    readBytes?_eq_some _ _ _ h88, readBytes?_eq_some _ _ _ h96, hm]

/-- Batch decoding is the independent decode of every element: exactly the
records whose parse succeeds survive, in order, paired with their address. -/
theorem fetchAllOracles_eq_filterMap (accounts : List (Bytes × Bytes)) :
    fetchAllOracles accounts = accounts.filterMap fun a =>
      match parseOracleData a.2 with
      | some (some r) => some (a.1, r)
      | _ => none := by
  induction accounts with
  | nil => rfl
  | cons hd tl ih =>
    obtain ⟨pk, dat⟩ := hd
    simp only [fetchAllOracles, List.filterMap_cons]
    match hp : parseOracleData dat with
    | some (some r) => simp [ih]
    | some none => simp [ih]
    | none => simp [ih]

/-! ## Router instruction discriminators (src/MULTISIG_SETUP.md, the
documented content of sdk/constants/index.ts) -/

/-- `RouterInstruction.Initialize` discriminator byte. -/
def RouterInstruction.Initialize : Nat := 0

/-- `RouterInstruction.InitializePortfolio` discriminator byte. -/
def RouterInstruction.InitializePortfolio : Nat := 1

/-- `RouterInstruction.InitializeVault` discriminator byte. -/
def RouterInstruction.InitializeVault : Nat := 2

/-- `RouterInstruction.Deposit` discriminator byte. -/
def RouterInstruction.Deposit : Nat := 3

/-- `RouterInstruction.Withdraw` discriminator byte. -/
def RouterInstruction.Withdraw : Nat := 4

/-- `RouterInstruction.ExecuteCrossSlab` discriminator byte. -/
def RouterInstruction.ExecuteCrossSlab : Nat := 5

/-- `RouterInstruction.LiquidateUser` discriminator byte. -/
def RouterInstruction.LiquidateUser : Nat := 6

/-- `RouterInstruction.BurnLpShares` discriminator byte. -/
def RouterInstruction.BurnLpShares : Nat := 7

/-- `RouterInstruction.CancelLpOrders` discriminator byte. -/
def RouterInstruction.CancelLpOrders : Nat := 8

/-- `RouterInstruction.RouterReserve` discriminator byte. -/
def RouterInstruction.RouterReserve : Nat := 9

/-- `RouterInstruction.RouterRelease` discriminator byte. -/
def RouterInstruction.RouterRelease : Nat := 10

/-- `RouterInstruction.RouterLiquidity` discriminator byte. -/
def RouterInstruction.RouterLiquidity : Nat := 11

/-- `RouterInstruction.TopUpInsurance` discriminator byte. -/
def RouterInstruction.TopUpInsurance : Nat := 12

/-- `RouterInstruction.WithdrawInsurance` discriminator byte. -/
def RouterInstruction.WithdrawInsurance : Nat := 13

/-- `RouterInstruction.GlobalHaircut` discriminator byte. -/
def RouterInstruction.GlobalHaircut : Nat := 14

/-- `RouterInstruction.UpdateRiskParams` discriminator byte. -/
def RouterInstruction.UpdateRiskParams : Nat := 15

/-! ## Router instruction payload builders (src/sdk/instructions/router.ts) -/

/-- `Side.Buy` of `src/sdk/types/index.ts`. -/
def Side.Buy : Nat := 0

/-- `Side.Sell` of `src/sdk/types/index.ts`. -/
def Side.Sell : Nat := 1

/-- `PlaceOrderParams` of `src/sdk/types/index.ts`; the enum-typed fields
carry their numeric enum values. -/
structure PlaceOrderParams where
  instrumentIdx : Nat
  side : Nat
  size : Int
  price : Int
  timeInForce : Nat
  makerClass : Nat
deriving DecidableEq, Repr

/-- The payload built by `createDepositInstruction`
(`src/sdk/instructions/router.ts` lines 88-91):
`Buffer.alloc(9)`, discriminator at 0, `amount` as u64 LE at 1. -/
def createDepositInstructionData (amount : Nat) : Bytes :=
  writeBigUInt64LE
    (writeUInt8 (Buffer.alloc 9) RouterInstruction.Deposit 0) amount 1

/-- The payload built by `createExecuteCrossSlabInstruction`
(`src/sdk/instructions/router.ts` lines 170-182): 19 bytes, discriminator,
`numSplits = 1`, then one split `side / qty / limit_px`. -/
def createExecuteCrossSlabInstructionData (params : PlaceOrderParams) : Bytes :=
  let numSplits : Nat := 1
  let d0 := Buffer.alloc (1 + 1 + 17)
  let d1 := writeUInt8 d0 RouterInstruction.ExecuteCrossSlab 0
  let d2 := writeUInt8 d1 numSplits 1
  let sideByte : Nat := if params.side = 0 then 0 else 1
  let d3 := writeUInt8 d2 sideByte 2
  let d4 := writeBigInt64LE d3 params.size 3
  writeBigInt64LE d4 params.price 11

/-- The payload built by `createRouterReserveInstruction`
(`src/sdk/instructions/router.ts` lines 242-246):
discriminator, `amount` as u64 LE at 1, `context_id` as u32 LE at 9. -/
def createRouterReserveInstructionData (amount contextId : Nat) : Bytes :=
  writeUInt32LE
    (writeBigUInt64LE
      (writeUInt8 (Buffer.alloc 13) RouterInstruction.RouterReserve 0)
      amount 1)
    contextId 9

/-! ## Seeds and derived addresses (src/sdk/pda/index.ts and the seed
constants documented in src/MULTISIG_SETUP.md) -/

/-- `ESCROW_SEED = Buffer.from('escrow')` — ASCII bytes of "escrow". -/
def ESCROW_SEED : Bytes := [101, 115, 99, 114, 111, 119]

/-- `LP_SEAT_SEED = Buffer.from('lp_seat')` — ASCII bytes of "lp_seat". -/
def LP_SEAT_SEED : Bytes := [108, 112, 95, 115, 101, 97, 116]

/-- ASCII bytes of 'portfolio', the `create_with_seed` tag used by
`createPortfolioAddress`. -/
def PORTFOLIO_TAG : Bytes := [112, 111, 114, 116, 102, 111, 108, 105, 111]

/-- ASCII bytes of "ProgramDerivedAddress", the domain separator the
platform's `createProgramAddress` appends before hashing. -/
def PDA_MARKER : Bytes :=
  [80, 114, 111, 103, 114, 97, 109, 68, 101, 114, 105, 118, 101, 100,
   65, 100, 100, 114, 101, 115, 115]

/-- The platform's collision-resistant derivation primitive, treated as an
opaque one-way function per the specification; the source delegates it to
`@solana/web3.js` (SHA-256). -/
abbrev HashFn := Bytes → Bytes

/-- Whether a candidate address lands in the reserved subspace (the
ed25519 curve); opaque for the same reason as `HashFn`. -/
abbrev CurveCheck := Bytes → Bool

/-- Maximum byte length of a single seed on the platform. -/
def MAX_SEED_LENGTH : Nat := 32

/-- The platform's `createProgramAddressSync`: hash the concatenated seeds,
program id and domain separator; an on-curve result is rejected. -/
def createProgramAddress (H : HashFn) (onCurve : CurveCheck)
    (seeds : List Bytes) (programId : Bytes) : Option Bytes :=
  let addr := H (seeds.foldr (· ++ ·) [] ++ programId ++ PDA_MARKER)
  if onCurve addr then none else some addr

/-- Bump search of `findProgramAddressSync`: try each discriminant of
`bumps` in order, returning the first off-curve address with its bump. -/
def findProgramAddressAux (H : HashFn) (onCurve : CurveCheck)
    (seeds : List Bytes) (programId : Bytes) : List Nat → Option (Bytes × Nat)
  | [] => none
  | bump :: rest =>
    match createProgramAddress H onCurve (seeds ++ [[bump]]) programId with
    | some address => some (address, bump)
    | none => findProgramAddressAux H onCurve seeds programId rest

/-- The platform's `findProgramAddressSync`: over-long seeds are a fatal
error; otherwise search bumps from 255 down to 0. -/
def findProgramAddress (H : HashFn) (onCurve : CurveCheck)
    (seeds : List Bytes) (programId : Bytes) : Option (Bytes × Nat) :=
  if seeds.any fun s => MAX_SEED_LENGTH < s.length then none
  else findProgramAddressAux H onCurve seeds programId (List.range 256).reverse

/-- `deriveEscrowPda` of `src/sdk/pda/index.ts`: seeds are the escrow tag,
then the user, slab and mint keys, in that order. -/
def deriveEscrowPda (H : HashFn) (onCurve : CurveCheck)
    (user slab mint programId : Bytes) : Option (Bytes × Nat) :=
  findProgramAddress H onCurve [ESCROW_SEED, user, slab, mint] programId

/-- `createPortfolioAddress` of `src/sdk/pda/index.ts`:
`PublicKey.createWithSeed(user, 'portfolio', programId)`, i.e. the hash of
base, tag and owner concatenated. -/
def createPortfolioAddress (H : HashFn) (user programId : Bytes) : Bytes :=
  H (user ++ PORTFOLIO_TAG ++ programId)

/-- The `Uint32Array`-backed context-id seed bytes of
`createRouterReserveInstruction` (`Buffer.from(new
Uint32Array([contextId]).buffer)`): `ToUint32` then the four bytes in host
order, little-endian on every platform Node supports. -/
def uint32ArrayBytes (n : Nat) : Bytes := natToLE 4 (n % 2 ^ 32)

/-- The LP-seat seed list built inline by `createRouterReserveInstruction`
(`src/sdk/instructions/router.ts` lines 231-240). -/
def createRouterReserveLpSeatSeeds (programId matcherState portfolio : Bytes)
    (contextId : Nat) : List Bytes :=
  [LP_SEAT_SEED, programId, matcherState, portfolio, uint32ArrayBytes contextId]

/-- The seed list of `deriveLpSeatPda` (`src/sdk/pda/index.ts` lines
204-216), whose context-id component is a 4-byte buffer written with
`writeUInt32LE`. -/
def deriveLpSeatPdaSeeds (routerId matcherState portfolio : Bytes)
    (contextId : Nat) : List Bytes :=
  [LP_SEAT_SEED, routerId, matcherState, portfolio,
   writeUInt32LE (Buffer.alloc 4) contextId 0]

/-! ## Governance authorization (src/unnamed/part_006, the multisig
utility) -/

/-- One member entry of a decoded Squads multisig account. -/
structure MultisigMember where
  key : Bytes
  permissions : Nat
deriving DecidableEq, Repr

/-- A decoded Squads multisig account: threshold and member list. -/
structure MultisigAccount where
  threshold : Nat
  members : List MultisigMember
deriving DecidableEq, Repr

/-- The ledger boundary for the resolver: what
`multisig.accounts.Multisig.fromAccountAddress` yields at each address —
`none` when the bytes there do not decode as a multisig account. -/
abbrev Ledger := Bytes → Option MultisigAccount

/-- `isSquadsMultisig`: the address decodes as a multisig account. -/
def isSquadsMultisig (resolve : Ledger) (address : Bytes) : Bool :=
  (resolve address).isSome

/-- `isMultisigMember`: decode the multisig at the address and test whether
the wallet appears in its member list; a failed decode is `false`. -/
def isMultisigMember (resolve : Ledger)
    (multisigAddress walletAddress : Bytes) : Bool :=
  match resolve multisigAddress with
  | some ms => ms.members.any fun member => member.key = walletAddress
  | none => false

/-- `hasGovernancePermission`: direct key equality first, then multisig
membership when the governance address decodes as a committee. -/
def hasGovernancePermission (resolve : Ledger)
    (governanceAddress walletAddress : Bytes) : Bool :=
  if walletAddress = governanceAddress then true
  else if isSquadsMultisig resolve governanceAddress then
    isMultisigMember resolve governanceAddress walletAddress
  else false

/-! ## Test fixtures -/

/-- The 8 magic bytes "PRCLORCL" as they sit at the front of a valid
oracle account. -/
def oracleMagicBytes : Bytes := natToLE 8 ORACLE_MAGIC

/-- A 128-byte oracle account buffer: correct magic, version byte `v`,
every other field zero. -/
def oracleBufWithVersion (v : Nat) : Bytes :=
  oracleMagicBytes ++ v :: List.replicate 119 0

/-! ## Claim theorems -/

/-- C1 (counterexample): the decoder performs no version validation at
all — a well-formed 128-byte buffer is accepted for every one of the 256
possible version byte values, so there is no version value whose presence
makes `decode` return Invalid, contradicting the claimed
`UnsupportedVersion` check. -/
theorem oracle_decode_no_version_check_cex :
    ((List.range 256).all fun v =>
      ((parseOracleData (oracleBufWithVersion v)).getD none).isSome) = true := by
  rw [List.all_eq_true]
  intro v _
  have hlen : (oracleBufWithVersion v).length = 128 := by
    simp [oracleBufWithVersion, oracleMagicBytes, natToLE_length]
  have hmagic : leNat ((oracleBufWithVersion v).take 8) = ORACLE_MAGIC := by
    have : (oracleBufWithVersion v).take 8 = oracleMagicBytes := by
      simp [oracleBufWithVersion, List.take_append_of_le_length,
        oracleMagicBytes, natToLE_length]
    rw [this]
    exact leNat_natToLE 8 ORACLE_MAGIC (by norm_num [ORACLE_MAGIC])
  rw [parseOracleData_success _ (by rw [hlen]; decide) hmagic]
  rfl

/-- C1 (amended): `parseOracleData` validates in order — a buffer shorter
than the 128-byte descriptor is Invalid (`TooShort`); otherwise a wrong
8-byte magic constant at offset 0 is Invalid (`BadMagic`); otherwise it
reads every declared field (the version byte among them, unvalidated) and
returns the fully populated record, never a partial one. -/
theorem oracle_decode_validation_order (data : Bytes) :
    (data.length < PRICE_ORACLE_SIZE → parseOracleData data = some none) ∧
    (PRICE_ORACLE_SIZE ≤ data.length → leNat (data.take 8) ≠ ORACLE_MAGIC →
      parseOracleData data = some none) ∧
    (PRICE_ORACLE_SIZE ≤ data.length → leNat (data.take 8) = ORACLE_MAGIC →
      parseOracleData data = some (some
        { magic := ORACLE_MAGIC
          version := leNat ((data.drop 8).take 1)
          bump := leNat ((data.drop 9).take 1)
          authority := (data.drop 16).take 32
          instrument := (data.drop 48).take 32
          price := i64ofNat (leNat ((data.drop 80).take 8))
          timestamp := i64ofNat (leNat ((data.drop 88).take 8))
          confidence := i64ofNat (leNat ((data.drop 96).take 8)) })) :=
  ⟨parseOracleData_short data, parseOracleData_badMagic data,
   parseOracleData_success data⟩

set_option maxRecDepth 4000 in
/-- C1 (witness): the three validation outcomes at concrete buffers — a
3-byte buffer, a 128-byte buffer of `7`s (wrong magic), and a well-formed
buffer with version byte 1. -/
theorem oracle_decode_validation_order_witness :
    parseOracleData (List.replicate 3 0) = some none ∧
    parseOracleData (List.replicate 128 7) = some none ∧
    parseOracleData (oracleBufWithVersion 1) = some (some
      { magic := ORACLE_MAGIC
        version := leNat (((oracleBufWithVersion 1).drop 8).take 1)
        bump := leNat (((oracleBufWithVersion 1).drop 9).take 1)
        authority := ((oracleBufWithVersion 1).drop 16).take 32
        instrument := ((oracleBufWithVersion 1).drop 48).take 32
        price := i64ofNat (leNat (((oracleBufWithVersion 1).drop 80).take 8))
        timestamp := i64ofNat (leNat (((oracleBufWithVersion 1).drop 88).take 8))
        confidence := i64ofNat (leNat (((oracleBufWithVersion 1).drop 96).take 8)) }) :=
  ⟨(oracle_decode_validation_order _).1 (by decide),
   (oracle_decode_validation_order _).2.1 (by decide) (by decide),
   (oracle_decode_validation_order _).2.2 (by decide) (by decide)⟩

/-- C6: decoding any buffer strictly shorter than the 128-byte oracle
record length stays inside the buffer (the result is `some _`, never the
out-of-bounds marker `none`) and reports the absent record. -/
theorem oracle_decode_truncation_safety (data : Bytes)
    (h : data.length < PRICE_ORACLE_SIZE) :
    parseOracleData data = some none :=
  parseOracleData_short data h

set_option maxRecDepth 4000 in
/-- C6 (witness): a 127-byte buffer is rejected as too short. -/
theorem oracle_decode_truncation_safety_witness :
    parseOracleData (List.replicate 127 9) = some none :=
  oracle_decode_truncation_safety _ (by decide)

/-- C7: batch decoding is the independent decode of each record — the
result is exactly the per-record parses that succeed, and for three
records of which only the second is invalid, the batch returns the first
and third records decoded as they would be alone. -/
theorem batch_decode_isolation (accounts : List (Bytes × Bytes))
    (a1 a2 a3 d1 d2 d3 : Bytes) (r1 r3 : PriceOracle) :
    (fetchAllOracles accounts = accounts.filterMap fun a =>
      match parseOracleData a.2 with
      | some (some r) => some (a.1, r)
      | _ => none) ∧
    (parseOracleData d1 = some (some r1) → parseOracleData d2 = some none →
      parseOracleData d3 = some (some r3) →
      fetchAllOracles [(a1, d1), (a2, d2), (a3, d3)] = [(a1, r1), (a3, r3)]) := by
  refine ⟨fetchAllOracles_eq_filterMap accounts, ?_⟩
  intro h1 h2 h3
  simp [fetchAllOracles, h1, h2, h3]

set_option maxRecDepth 4000 in
/-- C7 (witness): three concrete 128-byte records, the middle one with a
corrupted magic constant; the batch returns exactly the first and third. -/
theorem batch_decode_isolation_witness :
    fetchAllOracles
      [([1], oracleBufWithVersion 1), ([2], List.replicate 128 7),
       ([3], oracleBufWithVersion 2)] =
      [([1], { magic := ORACLE_MAGIC, version := 1, bump := 0
               authority := List.replicate 32 0
               instrument := List.replicate 32 0
               price := 0, timestamp := 0, confidence := 0 }),
       ([3], { magic := ORACLE_MAGIC, version := 2, bump := 0
               authority := List.replicate 32 0
               instrument := List.replicate 32 0
               price := 0, timestamp := 0, confidence := 0 })] :=
  (batch_decode_isolation [] [1] [2] [3] _ _ _ _ _).2
    (by decide) (by decide) (by decide)

/-- C2 (counterexample): the deposit operation's discriminator is 3, not
1 — the value 1 belongs to `InitializePortfolio` — and the byte the deposit
builder writes at payload offset 0 is 3. -/
theorem deposit_discriminator_not_one_cex :
    RouterInstruction.Deposit ≠ 1 ∧ RouterInstruction.Deposit = 3 ∧
    RouterInstruction.InitializePortfolio = 1 ∧
    (createDepositInstructionData 1000000000).head? = some 3 := by
  refine ⟨by decide, rfl, rfl, rfl⟩

/-- C2 (amended): the per-operation discriminators are the stable small
integers 0 through 15, starting at 0 for `Initialize` and increasing to
the highest defined operation (`UpdateRiskParams` = 15), with `Deposit` =
3; and every deposit payload the builder produces carries the deposit
discriminator at offset 0. -/
theorem router_discriminator_bytes :
    RouterInstruction.Initialize = 0 ∧
    RouterInstruction.InitializePortfolio = 1 ∧
    RouterInstruction.InitializeVault = 2 ∧
    RouterInstruction.Deposit = 3 ∧
    RouterInstruction.Withdraw = 4 ∧
    RouterInstruction.ExecuteCrossSlab = 5 ∧
    RouterInstruction.LiquidateUser = 6 ∧
    RouterInstruction.BurnLpShares = 7 ∧
    RouterInstruction.CancelLpOrders = 8 ∧
    RouterInstruction.RouterReserve = 9 ∧
    RouterInstruction.RouterRelease = 10 ∧
    RouterInstruction.RouterLiquidity = 11 ∧
    RouterInstruction.TopUpInsurance = 12 ∧
    RouterInstruction.WithdrawInsurance = 13 ∧
    RouterInstruction.GlobalHaircut = 14 ∧
    RouterInstruction.UpdateRiskParams = 15 ∧
    ∀ amount : Nat, (createDepositInstructionData amount).head? =
      some RouterInstruction.Deposit := by
  refine ⟨rfl, rfl, rfl, rfl, rfl, rfl, rfl, rfl, rfl, rfl, rfl, rfl, rfl,
    rfl, rfl, rfl, fun amount => rfl⟩

/-- C5: for every 64-bit amount the deposit payload is the deposit
discriminator followed by the amount as unsigned little-endian u64 at
offset 1, and reading those 8 bytes back as u64 LE recovers the amount. -/
theorem deposit_payload_roundtrip (amount : Nat) (h : amount < 2 ^ 64) :
    createDepositInstructionData amount =
      RouterInstruction.Deposit :: natToLE 8 amount ∧
    (createDepositInstructionData amount).head? =
      some RouterInstruction.Deposit ∧
    readBigUInt64LE? (createDepositInstructionData amount) 1 = some amount := by
  refine ⟨rfl, rfl, ?_⟩
  have hread : readBytes? (createDepositInstructionData amount) 1 8 =
      some (natToLE 8 amount) := by
    rw [readBytes?_eq_some]
    · exact congrArg some (List.take_of_length_le
        (by show (natToLE 8 amount).length ≤ 8; rw [natToLE_length]))
    · show 1 + 8 ≤ (RouterInstruction.Deposit :: natToLE 8 amount).length
      simp [natToLE_length]
  rw [readBigUInt64LE?, hread]
  simp [leNat_natToLE 8 amount h]

/-- C5 (witness): the round trip at the concrete amount 1_000_000_000. -/
theorem deposit_payload_roundtrip_witness :
    createDepositInstructionData 1000000000 =
      RouterInstruction.Deposit :: natToLE 8 1000000000 ∧
    (createDepositInstructionData 1000000000).head? =
      some RouterInstruction.Deposit ∧
    readBigUInt64LE? (createDepositInstructionData 1000000000) 1 =
      some 1000000000 :=
  deposit_payload_roundtrip 1000000000 (by decide)

/-- C9: every cross-slab payload is exactly 19 bytes, its `num_splits`
byte at offset 1 is always 1, and the payload is a function of the side,
size and price parameters only — two parameter records agreeing on those
three fields produce identical payloads, whatever their `instrumentIdx`,
`timeInForce` and `makerClass`. -/
theorem cross_slab_payload_shape (params : PlaceOrderParams) :
    (createExecuteCrossSlabInstructionData params).length = 19 ∧
    (createExecuteCrossSlabInstructionData params).head? =
      some RouterInstruction.ExecuteCrossSlab ∧
    (createExecuteCrossSlabInstructionData params)[1]? = some 1 ∧
    (∀ q : PlaceOrderParams, q.side = params.side → q.size = params.size →
      q.price = params.price →
      createExecuteCrossSlabInstructionData q =
        createExecuteCrossSlabInstructionData params) := by
  have hshape : ∀ p : PlaceOrderParams,
      createExecuteCrossSlabInstructionData p =
        RouterInstruction.ExecuteCrossSlab :: 1 ::
          (if p.side = 0 then 0 else 1) ::
          (natToLE 8 (p.size % 2 ^ 64).toNat ++
           natToLE 8 (p.price % 2 ^ 64).toNat) := fun _ => rfl
  refine ⟨?_, rfl, rfl, ?_⟩
  · rw [hshape]
    simp [natToLE_length]
  · intro q h1 h2 h3
    rw [hshape q, hshape params, h1, h2, h3]

/-- C9 (witness): two concrete parameter records sharing side, size and
price but differing in instrument index, time-in-force and maker class
produce the same 19-byte payload. -/
theorem cross_slab_payload_shape_witness :
    (createExecuteCrossSlabInstructionData ⟨7, 1, 5, 9, 2, 1⟩).length = 19 ∧
    (createExecuteCrossSlabInstructionData ⟨7, 1, 5, 9, 2, 1⟩).head? =
      some RouterInstruction.ExecuteCrossSlab ∧
    (createExecuteCrossSlabInstructionData ⟨7, 1, 5, 9, 2, 1⟩)[1]? = some 1 ∧
    createExecuteCrossSlabInstructionData ⟨0, 1, 5, 9, 0, 0⟩ =
      createExecuteCrossSlabInstructionData ⟨7, 1, 5, 9, 2, 1⟩ :=
  ⟨(cross_slab_payload_shape ⟨7, 1, 5, 9, 2, 1⟩).1,
   (cross_slab_payload_shape ⟨7, 1, 5, 9, 2, 1⟩).2.1,
   (cross_slab_payload_shape ⟨7, 1, 5, 9, 2, 1⟩).2.2.1,
   (cross_slab_payload_shape ⟨7, 1, 5, 9, 2, 1⟩).2.2.2 ⟨0, 1, 5, 9, 0, 0⟩
     rfl rfl rfl⟩

/-- C3: for every user, matcher state, amount and 32-bit context id, the
4 bytes the reserve builder writes at payload offsets 9..12 are exactly
the final 4-byte seed component of the LP-seat derivation — both in the
seed list the builder assembles inline and in `deriveLpSeatPda`'s seed
list — so payload and seed serialize the context id identically. -/
theorem reserve_context_id_serialization (H : HashFn)
    (user matcherState programId : Bytes) (amount contextId : Nat)
    (h : contextId < 2 ^ 32) :
    ((createRouterReserveInstructionData amount contextId).drop 9).take 4 =
      uint32ArrayBytes contextId ∧
    (((createRouterReserveInstructionData amount contextId).drop 9).take 4).length
      = 4 ∧
    (createRouterReserveLpSeatSeeds programId matcherState
        (createPortfolioAddress H user programId) contextId).getLast? =
      some (((createRouterReserveInstructionData amount contextId).drop 9).take 4) ∧
    (deriveLpSeatPdaSeeds programId matcherState
        (createPortfolioAddress H user programId) contextId).getLast? =
      some (((createRouterReserveInstructionData amount contextId).drop 9).take 4) := by
  have hslice :
      ((createRouterReserveInstructionData amount contextId).drop 9).take 4 =
        natToLE 4 contextId := by
    have hdata : createRouterReserveInstructionData amount contextId =
        RouterInstruction.RouterReserve ::
          (natToLE 8 amount ++ natToLE 4 contextId) := rfl
    rw [hdata]
    show ((natToLE 8 amount ++ natToLE 4 contextId).drop 8).take 4 =
      natToLE 4 contextId
    rw [List.drop_left' (natToLE_length 8 amount)]
    exact List.take_of_length_le (by rw [natToLE_length])
  have hu32 : uint32ArrayBytes contextId = natToLE 4 contextId := by
    rw [uint32ArrayBytes, Nat.mod_eq_of_lt h]
  refine ⟨by rw [hslice, hu32], by rw [hslice, natToLE_length], ?_, ?_⟩
  · rw [hslice]
    simp [createRouterReserveLpSeatSeeds, hu32]
  · rw [hslice]
    simp [deriveLpSeatPdaSeeds]
    rfl

/-- C3 (witness): the serialization agreement at concrete inputs (identity
stand-in for the opaque platform hash; context id 5). -/
theorem reserve_context_id_serialization_witness :
    ((createRouterReserveInstructionData 10 5).drop 9).take 4 =
      uint32ArrayBytes 5 ∧
    (((createRouterReserveInstructionData 10 5).drop 9).take 4).length = 4 ∧
    (createRouterReserveLpSeatSeeds [3] [2]
        (createPortfolioAddress (fun bs => bs) [1] [3]) 5).getLast? =
      some (((createRouterReserveInstructionData 10 5).drop 9).take 4) ∧
    (deriveLpSeatPdaSeeds [3] [2]
        (createPortfolioAddress (fun bs => bs) [1] [3]) 5).getLast? =
      some (((createRouterReserveInstructionData 10 5).drop 9).take 4) :=
  reserve_context_id_serialization (fun bs => bs) [1] [2] [3] 10 5 (by decide)

/-- Fixture ledger for the governance witnesses: address `[10]` holds a
2-of-3 committee with members `[1]`, `[2]`, `[3]`; no other address
decodes as a multisig. -/
def ledgerFixture : Ledger := fun addr =>
  if addr = [10] then
    some { threshold := 2
           members := [{ key := [1], permissions := 7 },
                       { key := [2], permissions := 7 },
                       { key := [3], permissions := 7 }] }
  else none

/-- C4: a governance address that does not decode as a committee behaves
as a single key — permission iff the candidate equals the authority — and
one that decodes as a committee with members `{A, B, C}` grants membership
permission to each of A, B and C and denies it to every candidate outside
the member list, whatever the committee's threshold. -/
theorem governance_membership_policy (resolve : Ledger)
    (G W A B C : Bytes) (t pa pb pc : Nat) :
    (resolve G = none →
      (hasGovernancePermission resolve G W = true ↔ W = G)) ∧
    (resolve G = some { threshold := t
                        members := [{ key := A, permissions := pa },
                                    { key := B, permissions := pb },
                                    { key := C, permissions := pc }] } →
      isMultisigMember resolve G A = true ∧
      isMultisigMember resolve G B = true ∧
      isMultisigMember resolve G C = true ∧
      (W ≠ A → W ≠ B → W ≠ C → isMultisigMember resolve G W = false)) := by
  constructor
  · intro hnone
    constructor
    · intro hperm
      by_contra hne
      simp [hasGovernancePermission, hne, isSquadsMultisig, hnone,
        isMultisigMember] at hperm
    · intro he
      simp [hasGovernancePermission, he]
  · intro hsome
    refine ⟨?_, ?_, ?_, ?_⟩
    · simp [isMultisigMember, hsome]
    · simp [isMultisigMember, hsome]
    · simp [isMultisigMember, hsome]
    · intro h1 h2 h3
      simp [isMultisigMember, hsome]
      exact ⟨fun hcx => h1 hcx.symm, fun hcx => h2 hcx.symm,
        fun hcx => h3 hcx.symm⟩

/-- C4 (witness): against the fixture ledger, address `[9]` (no committee)
grants only itself, and the committee at `[10]` grants each of its three
members and denies the outsider `[4]`, with threshold 2 playing no role. -/
theorem governance_membership_policy_witness :
    (hasGovernancePermission ledgerFixture [9] [4] = true ↔ ([4] : Bytes) = [9]) ∧
    isMultisigMember ledgerFixture [10] [1] = true ∧
    isMultisigMember ledgerFixture [10] [2] = true ∧
    isMultisigMember ledgerFixture [10] [3] = true ∧
    isMultisigMember ledgerFixture [10] [4] = false := by
  have h1 := (governance_membership_policy ledgerFixture [9] [4]
    [1] [2] [3] 2 7 7 7).1 (by decide)
  have h2 := (governance_membership_policy ledgerFixture [10] [4]
    [1] [2] [3] 2 7 7 7).2 (by decide)
  exact ⟨h1, h2.1, h2.2.1, h2.2.2.1,
    h2.2.2.2 (by decide) (by decide) (by decide)⟩

/-- C10: the authorization check tests direct equality before the
committee probe, so a candidate equal to the governance address is always
granted — for every ledger state, including one where that address decodes
as a committee of which it is not a member. -/
theorem governance_self_candidate_always_granted (resolve : Ledger)
    (G : Bytes) :
    hasGovernancePermission resolve G G = true := by
  simp [hasGovernancePermission]

/-! ### Derivation lemmas -/

theorem foldr_append_concat (seeds : List Bytes) (x : Bytes) :
    seeds.foldr (· ++ ·) x = seeds.foldr (· ++ ·) [] ++ x := by
  induction seeds with
  | nil => simp
  | cons s rest ih => simp [List.foldr_cons, ih, List.append_assoc]

/-- A successful bump search returns the hash of the seeds, the found
bump, the program id and the domain separator, concatenated. -/
theorem findProgramAddressAux_some (H : HashFn) (oc : CurveCheck)
    (seeds : List Bytes) (programId : Bytes) (bumps : List Nat)
    (a : Bytes) (b : Nat)
    (h : findProgramAddressAux H oc seeds programId bumps = some (a, b)) :
    a = H (seeds.foldr (· ++ ·) [] ++ [b] ++ programId ++ PDA_MARKER) := by
  induction bumps with
  | nil => simp [findProgramAddressAux] at h
  | cons bump rest ih =>
    rw [findProgramAddressAux] at h
    revert h
    cases hcp : createProgramAddress H oc (seeds ++ [[bump]]) programId with
    | none => intro h; exact ih h
    | some addr =>
      intro h
      obtain ⟨ha, hb⟩ : addr = a ∧ bump = b := by
        injection h with h'
        exact ⟨congrArg Prod.fst h', congrArg Prod.snd h'⟩
      subst ha; subst hb
      simp only [createProgramAddress] at hcp
      split at hcp
      · exact absurd hcp (by simp)
      · have hfold : (seeds ++ [[bump]]).foldr (· ++ ·) [] =
            seeds.foldr (· ++ ·) [] ++ [bump] := by
          rw [List.foldr_append, show ([[bump]] : List Bytes).foldr (· ++ ·) []
            = [bump] from rfl, foldr_append_concat]
        rw [← Option.some.inj hcp, hfold]

theorem findProgramAddress_some (H : HashFn) (oc : CurveCheck)
    (seeds : List Bytes) (programId : Bytes) (a : Bytes) (b : Nat)
    (h : findProgramAddress H oc seeds programId = some (a, b)) :
    a = H (seeds.foldr (· ++ ·) [] ++ [b] ++ programId ++ PDA_MARKER) := by
  rw [findProgramAddress] at h
  split at h
  · exact absurd h (by simp)
  · exact findProgramAddressAux_some H oc seeds programId _ a b h

/-- C8: escrow address derivation is a pure function of its inputs —
identical inputs give an identical address and bump — and it is
order-sensitive: as long as the platform hash does not collide on these
inputs, swapping the user and slab seed positions changes the derived
address whenever both derivations succeed. -/
theorem escrow_pda_deterministic_and_order_sensitive (H : HashFn)
    (oc : CurveCheck) (u s m p u' s' m' p' : Bytes) :
    (u = u' → s = s' → m = m' → p = p' →
      deriveEscrowPda H oc u s m p = deriveEscrowPda H oc u' s' m' p') ∧
    (Function.Injective H → u.length = 32 → s.length = 32 → u ≠ s →
      (deriveEscrowPda H oc u s m p).isSome = true →
      (deriveEscrowPda H oc s u m p).isSome = true →
      (deriveEscrowPda H oc u s m p).map Prod.fst ≠
        (deriveEscrowPda H oc s u m p).map Prod.fst) := by
  constructor
  · intro h1 h2 h3 h4
    rw [h1, h2, h3, h4]
  · intro hinj hu hs hne hs1 hs2 heq
    obtain ⟨⟨a1, b1⟩, h1⟩ := Option.isSome_iff_exists.mp hs1
    obtain ⟨⟨a2, b2⟩, h2⟩ := Option.isSome_iff_exists.mp hs2
    rw [h1, h2] at heq
    simp only [Option.map_some'] at heq
    replace heq : a1 = a2 := Option.some.inj heq
    have ha1 := findProgramAddress_some H oc [ESCROW_SEED, u, s, m] p a1 b1 h1
    have ha2 := findProgramAddress_some H oc [ESCROW_SEED, s, u, m] p a2 b2 h2
    rw [ha1, ha2] at heq
    have hpre := hinj heq
    simp only [List.foldr_cons, List.foldr_nil, List.append_nil,
      List.append_assoc] at hpre
    have hus := List.append_cancel_left hpre
    have htake := congrArg (List.take 32) hus
    rw [List.take_left' hu, List.take_left' hs] at htake
    exact hne htake

/-- Witness fixtures for C8: four distinct 32-byte keys, the identity
function standing in for the opaque platform hash, and a curve check that
accepts the first candidate. -/
def pdaUserFixture : Bytes := List.replicate 32 1

/-- Slab key fixture for the C8 witness. -/
def pdaSlabFixture : Bytes := List.replicate 32 2

/-- Mint key fixture for the C8 witness. -/
def pdaMintFixture : Bytes := List.replicate 32 3

/-- Program id fixture for the C8 witness. -/
def pdaProgramFixture : Bytes := List.replicate 32 4

set_option maxRecDepth 8000 in
/-- C8 (witness): at concrete 32-byte keys, with an injective stand-in for
the platform hash, both derivations succeed (bump 255) and swapping the
user and slab seeds changes the derived address; identical inputs give an
identical result. -/
theorem escrow_pda_deterministic_and_order_sensitive_witness :
    deriveEscrowPda (fun bs => bs) (fun _ => false)
        pdaUserFixture pdaSlabFixture pdaMintFixture pdaProgramFixture =
      deriveEscrowPda (fun bs => bs) (fun _ => false)
        pdaUserFixture pdaSlabFixture pdaMintFixture pdaProgramFixture ∧
    (deriveEscrowPda (fun bs => bs) (fun _ => false)
        pdaUserFixture pdaSlabFixture pdaMintFixture pdaProgramFixture).isSome
      = true ∧
    (deriveEscrowPda (fun bs => bs) (fun _ => false)
        pdaSlabFixture pdaUserFixture pdaMintFixture pdaProgramFixture).isSome
      = true ∧
    (deriveEscrowPda (fun bs => bs) (fun _ => false)
        pdaUserFixture pdaSlabFixture pdaMintFixture pdaProgramFixture).map
        Prod.fst ≠
      (deriveEscrowPda (fun bs => bs) (fun _ => false)
        pdaSlabFixture pdaUserFixture pdaMintFixture pdaProgramFixture).map
        Prod.fst :=
  ⟨(escrow_pda_deterministic_and_order_sensitive (fun bs => bs) (fun _ => false)
      pdaUserFixture pdaSlabFixture pdaMintFixture pdaProgramFixture
      pdaUserFixture pdaSlabFixture pdaMintFixture pdaProgramFixture).1
      rfl rfl rfl rfl,
   by decide, by decide,
   (escrow_pda_deterministic_and_order_sensitive (fun bs => bs) (fun _ => false)
      pdaUserFixture pdaSlabFixture pdaMintFixture pdaProgramFixture
      pdaSlabFixture pdaUserFixture pdaMintFixture pdaProgramFixture).2
      (fun _ _ hxy => hxy) (by decide) (by decide) (by decide)
      (by decide) (by decide)⟩

end Sonalex
